import Mathlib

/-!
# Verification of the mbed TLS X.509 certificate-chain verifier

A shallow embedding of the X.509 parsing and chain-verification code
(`x509_crt.c`) together with proofs about it.  Pure C functions become Lean
functions over `Nat`/`Int`/`List`; external collaborators (the clock, the
public-key backend, CRL checking) appear as explicit oracle parameters, as
the C code treats them as opaque capabilities.
-/

namespace X509

/-! ## Error codes (values from the mbed TLS error headers) -/

def errOutOfData : Int := -96           -- MBEDTLS_ERR_ASN1_OUT_OF_DATA (-0x60)
def errUnexpectedTag : Int := -98       -- MBEDTLS_ERR_ASN1_UNEXPECTED_TAG (-0x62)
def errInvalidLength : Int := -100      -- MBEDTLS_ERR_ASN1_INVALID_LENGTH (-0x64)
def errLengthMismatch : Int := -102     -- MBEDTLS_ERR_ASN1_LENGTH_MISMATCH (-0x66)
def errX509FatalError : Int := -12288   -- MBEDTLS_ERR_X509_FATAL_ERROR (-0x3000)
def errX509CertVerifyFailed : Int := -9984  -- MBEDTLS_ERR_X509_CERT_VERIFY_FAILED (-0x2700)
def errX509BadInputData : Int := -10240 -- MBEDTLS_ERR_X509_BAD_INPUT_DATA (-0x2800)

/-! ## Defect-flag bits (MBEDTLS_X509_BADCERT_* / BADCRL_*) -/

def badcertExpired : Nat := 0x01
def badcertRevoked : Nat := 0x02
def badcertCnMismatch : Nat := 0x04
def badcertNotTrusted : Nat := 0x08
def badcertFuture : Nat := 0x0200
def badcertBadMd : Nat := 0x4000
def badcertBadPk : Nat := 0x8000
def badcertBadKey : Nat := 0x010000

/-- The all-ones 32-bit word `(uint32_t) -1` written to `*flags` on the
`exit` failure path of the verifier. -/
def allOnes32 : Nat := 2 ^ 32 - 1

/-! ## Extension-presence bits (MBEDTLS_X509_EXT_*) and key-usage bits -/

def extKeyUsage : Nat := 0x04
def extSubjectAltName : Nat := 0x20
def extBasicConstraints : Nat := 0x100

def kuKeyCertSign : Nat := 0x04
def kuEncipherOnly : Nat := 0x01
def kuDecipherOnly : Nat := 0x8000

/-- `MBEDTLS_X509_MAX_INTERMEDIATE_CA`, default configuration value. -/
def maxIntermediateCA : Nat := 8

/-! ## ASN.1 tag values -/

def tagBoolean : Nat := 0x01
def tagInteger : Nat := 0x02
def tagSequence : Nat := 0x30

/-! ## ASN.1 primitive readers

The ASN.1 module is an external collaborator of the file under study: only
its call sites live in `x509_crt.c`.  The readers below are therefore
modelled from the spec (§4.A).  A cursor `(p, end)` is represented by the
list of bytes remaining between `p` and `end`; a reader returns the decoded
value together with the advanced cursor.  Only short-form (single-byte,
`< 128`) lengths are modelled; the spec's length-overflow rejection is
subsumed by rejecting the long form outright. -/

/-- Modelled from the spec: `get_tag(&cursor, end, expected_tag) → len`.
An unexpected leading byte does not advance the cursor and yields
`UNEXPECTED_TAG`; running out of bytes yields `OUT_OF_DATA`. -/
def asn1_get_tag (input : List Nat) (tag : Nat) : Except Int (Nat × List Nat) :=
  match input with
  | [] => .error errOutOfData
  | t :: rest =>
    if t ≠ tag then .error errUnexpectedTag
    else match rest with
      | [] => .error errOutOfData
      | l :: rest2 =>
        if 128 ≤ l then .error errInvalidLength
        else if rest2.length < l then .error errOutOfData
        else .ok (l, rest2)

/-- Modelled from the spec: `get_bool`.  Reads a BOOLEAN tag of length 1;
the stored value is normalized to `0`/`1`. -/
def asn1_get_bool (input : List Nat) : Except Int (Nat × List Nat) :=
  match asn1_get_tag input tagBoolean with
  | .error e => .error e
  | .ok (len, s) =>
    if len ≠ 1 then .error errInvalidLength
    else match s with
      | [] => .error errOutOfData
      | b :: rest => .ok (if b ≠ 0 then 1 else 0, rest)

/-- Modelled from the spec: `get_int`.  Reads an INTEGER of 1..4 content
bytes whose leading byte has the top bit clear (non-negative, fits an
`int`), assembled big-endian. -/
def asn1_get_int (input : List Nat) : Except Int (Nat × List Nat) :=
  match asn1_get_tag input tagInteger with
  | .error e => .error e
  | .ok (len, s) =>
    if len = 0 ∨ 4 < len then .error errInvalidLength
    else if 128 ≤ s.headD 0 then .error errInvalidLength
    else .ok ((s.take len).foldl (fun a b => a * 256 + b) 0, s.drop len)

/-! ## BasicConstraints parsing (`x509_get_basic_constraints`) -/

/-- The `cA` parsing step of `x509_get_basic_constraints`: try
`mbedtls_asn1_get_bool`; on `MBEDTLS_ERR_ASN1_UNEXPECTED_TAG` fall back to
`mbedtls_asn1_get_int` (the cursor was not advanced) and normalize any
nonzero value to 1. -/
def x509_bc_parse_ca (s : List Nat) : Except Int (Nat × List Nat) :=
  match asn1_get_bool s with
  | .ok r => .ok r
  | .error e =>
    if e = errUnexpectedTag then
      match asn1_get_int s with
      | .ok (v, rest) => .ok (if v ≠ 0 then 1 else 0, rest)
      | .error e2 => .error e2
    else .error e

/-- The body of `x509_get_basic_constraints` after the outer SEQUENCE
header has been read, operating on the remaining extension octets `s0`.
The residual-byte checks compare against the extension end (the `end`
argument), exactly as the C does. -/
def x509_bc_after_seq (s0 : List Nat) : Except Int (Nat × Nat) :=
  if s0 = [] then .ok (0, 0)
  else
    match x509_bc_parse_ca s0 with
    | .error e => .error e
    | .ok (ca, s1) =>
      if s1 = [] then .ok (ca, 0)
      else
        match asn1_get_int s1 with
        | .error e => .error e
        | .ok (n, s2) =>
          if s2 ≠ [] then .error errLengthMismatch
          else .ok (ca, n + 1)

/-- `x509_get_basic_constraints`: parse
`SEQUENCE { cA BOOLEAN DEFAULT FALSE, pathLenConstraint INTEGER OPTIONAL }`
over the extension octets, returning `(ca_istrue, max_pathlen)`. -/
def x509_get_basic_constraints (input : List Nat) : Except Int (Nat × Nat) :=
  match asn1_get_tag input tagSequence with
  | .error e => .error e
  | .ok (_, s0) => x509_bc_after_seq s0

/-- Specification-side reading (spec / RFC 5280): skip the optional
`cA BOOLEAN` when one is encoded. -/
def specStripBool (s0 : List Nat) : List Nat :=
  match asn1_get_bool s0 with
  | .ok (_, r) => r
  | .error _ => s0

/-- Specification-side reading of the content: after the optional BOOLEAN,
an optional `pathLenConstraint INTEGER` that must consume the content
exactly; `some` iff the INTEGER field is present. -/
def specPathLenFromContent (s0 : List Nat) : Option Nat :=
  match asn1_get_int (specStripBool s0) with
  | .ok (n, r) => if r = [] then some n else none
  | .error _ => none

/-- Specification-side reading of the whole encoding, following the spec's
words (and RFC 5280): `SEQUENCE` of an optional `cA BOOLEAN` followed by an
optional `pathLenConstraint INTEGER`; returns the encoded pathLenConstraint
when the INTEGER field is present. -/
def specPathLenConstraint (input : List Nat) : Option Nat :=
  match asn1_get_tag input tagSequence with
  | .error _ => none
  | .ok (_, s0) => specPathLenFromContent s0

/-- Whether the content octets of the (outer SEQUENCE of the) extension
start with a BOOLEAN tag, i.e. whether the optional `cA` field is encoded
as the BOOLEAN the syntax prescribes. -/
def bcContentStartsWithBool (input : List Nat) : Bool :=
  match asn1_get_tag input tagSequence with
  | .error _ => false
  | .ok (_, s0) => s0.headD 0 = tagBoolean

/-- Whether the content octets of the outer SEQUENCE are empty. -/
def bcContentEmpty (input : List Nat) : Bool :=
  match asn1_get_tag input tagSequence with
  | .error _ => false
  | .ok (_, s0) => s0 = []

/-! ## Host-name matching -/

/-- Case folding of one ASCII byte, as done by the byte comparator. -/
def lowerNat (c : Char) : Nat :=
  if 65 ≤ c.toNat ∧ c.toNat ≤ 90 then c.toNat + 32 else c.toNat

/-- Modelled from the spec: `mbedtls_x509_memcasecmp` — case-insensitive
byte equality of two buffers, requiring equal lengths.  `true` corresponds
to the C function returning 0. -/
def memcasecmp (a b : List Char) : Bool :=
  a.length = b.length && (a.zip b).all fun p => lowerNat p.1 = lowerNat p.2

/-- The index C's scan leaves in `cn_idx`: the position of the first `'.'`
in `cn`, or 0 if there is none. -/
def firstDotIdx (cn : List Char) : Nat :=
  match cn.findIdx? (· = '.') with
  | some i => i
  | none => 0

/-- `x509_check_wildcard`: `true` corresponds to the C function
returning 0 (match). -/
def x509_check_wildcard (cn : List Char) (buf : List Char) : Bool :=
  if buf.length < 3 then false
  else if buf.headD ' ' ≠ '*' then false
  else if (buf.drop 1).headD ' ' ≠ '.' then false
  else
    let cnIdx := firstDotIdx cn
    if cnIdx = 0 then false
    else memcasecmp (buf.drop 1) (cn.drop cnIdx)

/-! ## The certificate model

A parsed certificate frame, with the fields the chain verifier reads.
Distinguished names are abstract codes: the external comparator
`mbedtls_x509_name_cmp_raw` (modelled from the spec's name-comparison
contract) reports equality exactly when the codes coincide.  `raw` is the
DER byte string, used for the byte-identity test of the EE-locally-trusted
shortcut. -/

/-- One entry of the SubjectAltName SEQUENCE: its ASN.1 tag byte and
content bytes. -/
structure SanEntry where
  tag : Nat
  data : List Char
  deriving DecidableEq, Inhabited

/-- One atom of a (subject) RDN sequence, as handed to the per-atom
callback of the name comparator: attribute OID bytes and value bytes. -/
structure NameAtom where
  oid : List Nat
  value : List Char
  deriving DecidableEq, Inhabited

structure Cert where
  subject : Nat
  issuer : Nat
  version : Nat
  caIstrue : Bool
  extTypes : Nat
  keyUsage : Nat
  maxPathlen : Nat
  validFrom : Nat
  validTo : Nat
  sigMd : Nat
  sigPk : Nat
  pkType : Nat
  raw : List Nat
  sanEntries : List SanEntry
  subjectAtoms : List NameAtom
  deriving DecidableEq, Inhabited

/-- An acceptability profile; the curve/RSA-length checks live behind the
public-key oracle (`Env.profileKeyOk`) since they read the external pk
context. -/
structure Profile where
  allowedMds : Nat
  allowedPks : Nat

/-- The oracles for the external collaborators consumed by the verifier:
the clock (`mbedtls_x509_time_is_past` / `_is_future` on abstract time
codes), the signature backend (`checkSig child parent` is true exactly when
the child's signature verifies under the parent's key), the public-key
cache (`pkAcquireOk`), the key-strength profile check
(`x509_profile_check_key`), and the CRL check (`x509_crt_verifycrl`, which
only contributes a flag word).  `kuEnabled` is the
`MBEDTLS_X509_CHECK_KEY_USAGE` compile option; `trustCa` is the static
trusted list; `caCb` the optional trusted-signer callback (`none` result =
callback failure). -/
structure Env where
  isPast : Nat → Bool
  isFuture : Nat → Bool
  checkSig : Cert → Cert → Bool
  pkAcquireOk : Cert → Bool
  profileKeyOk : Cert → Bool
  crlFlags : Cert → Cert → Nat
  kuEnabled : Bool
  profile : Profile
  profilePresent : Bool
  trustCa : List Cert
  caCb : Option (Cert → Option (List Cert))

/-! ## Profile and key-usage checks -/

/-- `MBEDTLS_X509_ID_FLAG( id ) = 1 << ( id - 1 )`. -/
def idFlag (id : Nat) : Nat := 1 <<< (id - 1)

/-- `x509_profile_check_md_alg`: `true` corresponds to C returning 0. -/
def x509_profile_check_md_alg (pr : Profile) (md : Nat) : Bool :=
  if md = 0 then false else decide ((pr.allowedMds &&& idFlag md) ≠ 0)

/-- `x509_profile_check_pk_alg`: `true` corresponds to C returning 0. -/
def x509_profile_check_pk_alg (pr : Profile) (pk : Nat) : Bool :=
  if pk = 0 then false else decide ((pr.allowedPks &&& idFlag pk) ≠ 0)

/-- `x509_crt_check_key_usage_frame`: `true` corresponds to C returning 0
(the requested usage is permitted).  Absent KeyUsage extension permits
everything. -/
def x509_crt_check_key_usage_frame (c : Cert) (usage : Nat) : Bool :=
  if c.extTypes &&& extKeyUsage = 0 then true
  else
    let mayMask := kuEncipherOnly ||| kuDecipherOnly
    let notMayMask := allOnes32 ^^^ mayMask
    let usageMust := usage &&& notMayMask
    if ((c.keyUsage &&& notMayMask) &&& usageMust) ≠ usageMust then false
    else
      let usageMay := usage &&& mayMask
      if ((c.keyUsage &&& mayMask) ||| usageMay) ≠ usageMay then false
      else true

/-! ## Parent checking and the find-parent scan -/

/-- `x509_crt_check_parent`: `true` corresponds to C returning 0
(suitable).  `childIssuer` is the issuer DN of the child's `SigInfo`. -/
def x509_crt_check_parent (kuEnabled : Bool) (childIssuer : Nat)
    (parent : Cert) (top : Bool) : Bool :=
  if childIssuer ≠ parent.subject then false
  else
    let needCaBit := !(top && decide (parent.version < 3))
    if needCaBit && !parent.caIstrue then false
    else if kuEnabled && needCaBit &&
        !(x509_crt_check_key_usage_frame parent kuKeyCertSign) then false
    else true

/-- The `path_len_ok` computation of `x509_crt_find_parent_in`:
`!( parent->max_pathlen > 0 && (size_t) parent->max_pathlen <
1 + path_cnt - self_cnt )`, with the subtraction in 32-bit unsigned
arithmetic as in C. -/
def x509_path_len_ok (maxPathlen pathCnt selfCnt : Nat) : Bool :=
  !(decide (0 < maxPathlen) &&
    decide (maxPathlen < (1 + pathCnt + (2 ^ 32 - selfCnt % 2 ^ 32)) % 2 ^ 32))

/-- The `parent_valid` computation: both time bounds satisfied now. -/
def x509_parent_valid (env : Env) (p : Cert) : Bool :=
  env.isPast p.validFrom && env.isFuture p.validTo

/-- `x509_crt_check_signature` outcome as a Bool (`true` = C returned 0):
public-key acquisition must succeed and the crypto backend must accept the
signature (`mbedtls_pk_can_do` mismatch is folded into the oracle). -/
def x509_crt_check_signature_ok (env : Env) (child parent : Cert) : Bool :=
  env.pkAcquireOk parent && env.checkSig child parent

/-- The candidate scan of `x509_crt_find_parent_in`, with the fallback
accumulator threaded explicitly.  Returns the found parent, the list tail
after it (the C `parent_crt->next`), and `signature_is_good`. -/
def x509_crt_find_parent_in_aux (env : Env) (child : Cert) (top : Bool)
    (pathCnt selfCnt : Nat) :
    List Cert → Option (Cert × List Cert × Bool) → Option (Cert × List Cert × Bool)
  | [], fb => fb
  | p :: rest, fb =>
    let parentValid := x509_parent_valid env p
    let parentMatch := x509_crt_check_parent env.kuEnabled child.issuer p top
    let pathLenOk := x509_path_len_ok p.maxPathlen pathCnt selfCnt
    if !parentMatch || !pathLenOk then
      x509_crt_find_parent_in_aux env child top pathCnt selfCnt rest fb
    else
      let sigGood := x509_crt_check_signature_ok env child p
      if top && !sigGood then
        x509_crt_find_parent_in_aux env child top pathCnt selfCnt rest fb
      else if !parentValid then
        x509_crt_find_parent_in_aux env child top pathCnt selfCnt rest
          (match fb with
           | none => some (p, rest, sigGood)
           | some f => some f)
      else some (p, rest, sigGood)

/-- `x509_crt_find_parent_in`. -/
def x509_crt_find_parent_in (env : Env) (child : Cert) (candidates : List Cert)
    (top : Bool) (pathCnt selfCnt : Nat) : Option (Cert × List Cert × Bool) :=
  x509_crt_find_parent_in_aux env child top pathCnt selfCnt candidates none

/-- `x509_crt_find_parent`: search trusted signers first, then the supplied
intermediates.  Result carries `(parent, tail, parent_is_trusted,
signature_is_good)`; `none` corresponds to `*parent == NULL` (in which case
the C also forces `parent_is_trusted = 0`, `signature_is_good = 0`). -/
def x509_crt_find_parent (env : Env) (child : Cert) (rest : List Cert)
    (trustList : List Cert) (pathCnt selfCnt : Nat) :
    Option (Cert × List Cert × Bool × Bool) :=
  match x509_crt_find_parent_in env child trustList true pathCnt selfCnt with
  | some (p, tail, sg) => some (p, tail, true, sg)
  | none =>
    match x509_crt_find_parent_in env child rest false pathCnt selfCnt with
    | some (p, tail, sg) => some (p, tail, false, sg)
    | none => none

/-- `x509_crt_check_ee_locally_trusted`: the child's DER is byte-identical
to some entry of the trusted list (`true` corresponds to C returning 0). -/
def x509_crt_check_ee_locally_trusted (c : Cert) (trustCa : List Cert) : Bool :=
  trustCa.any fun t => c.raw = t.raw

/-- The `self_cnt` update of the verify-chain loop:
`if( ver_chain->len != 1 && self_issued ) self_cnt++`. -/
def x509_next_self_cnt (chainLen : Nat) (selfIssued : Bool) (selfCnt : Nat) : Nat :=
  if chainLen ≠ 1 ∧ selfIssued then selfCnt + 1 else selfCnt

/-! ## Chain building and verification (`x509_crt_verify_chain`) -/

/-- Result of `x509_crt_verify_chain`.  `ok` is the C function returning 0
with the built chain; `fatal` is `MBEDTLS_ERR_X509_FATAL_ERROR` (the chain
appended so far is carried to reason about array bounds; the C caller
treats it as garbage).  `outOfFuel` marks exhaustion of the recursion
budget; `verify_chain_no_outOfFuel` below shows the budget
`maxIntermediateCA + 2` is never exhausted, so the fueled function covers
the C loop exactly. -/
inductive ChainResult where
  | ok (chain : List (Cert × Nat))
  | fatal (chain : List (Cert × Nat))
  | outOfFuel (chain : List (Cert × Nat))
  deriving DecidableEq

/-- The chain carried by a `ChainResult`. -/
def ChainResult.chain : ChainResult → List (Cert × Nat)
  | .ok c => c
  | .fatal c => c
  | .outOfFuel c => c

/-- One round of the `while( 1 )` loop of `x509_crt_verify_chain`,
recursing fuel-first.  The current certificate is appended with the defect
flags accumulated up to the applicable return point; `rest` is
`child_crt->next`. -/
def x509_crt_verify_chain_loop (env : Env) :
    Nat → Cert → List Cert → Bool → Nat → List (Cert × Nat) → ChainResult
  | 0, _, _, _, _, chain => .outOfFuel chain
  | fuel + 1, childCrt, rest, childTrusted, selfCnt, chain =>
    match (match env.caCb with
           | some cb => cb childCrt
           | none => some env.trustCa) with
    | none => .fatal (chain ++ [(childCrt, 0)])
    | some curTrustCa =>
      let flags1 := (if env.isPast childCrt.validTo then badcertExpired else 0)
              ||| (if env.isFuture childCrt.validFrom then badcertFuture else 0)
      if childTrusted then .ok (chain ++ [(childCrt, flags1)])
      else
        let selfIssued : Bool := childCrt.issuer == childCrt.subject
        let flags2 := flags1
          ||| (if !x509_profile_check_md_alg env.profile childCrt.sigMd then badcertBadMd else 0)
          ||| (if !x509_profile_check_pk_alg env.profile childCrt.sigPk then badcertBadPk else 0)
        if chain.length + 1 = 1 ∧ selfIssued ∧
            x509_crt_check_ee_locally_trusted childCrt env.trustCa then
          .ok (chain ++ [(childCrt, flags2)])
        else
          match x509_crt_find_parent env childCrt rest curTrustCa chain.length selfCnt with
          | none => .ok (chain ++ [(childCrt, flags2 ||| badcertNotTrusted)])
          | some (parent, tail, parentTrusted, sigGood) =>
            let selfCnt2 := x509_next_self_cnt (chain.length + 1) selfIssued selfCnt
            if !parentTrusted ∧ maxIntermediateCA < chain.length + 1 then
              .fatal (chain ++ [(childCrt, flags2)])
            else
              let flags3 := flags2 ||| (if !sigGood then badcertNotTrusted else 0)
              if !env.pkAcquireOk parent then .fatal (chain ++ [(childCrt, flags3)])
              else
                let flags4 := flags3
                  ||| (if !env.profileKeyOk parent then badcertBadKey else 0)
                  ||| env.crlFlags childCrt parent
                x509_crt_verify_chain_loop env fuel parent tail parentTrusted selfCnt2
                  (chain ++ [(childCrt, flags4)])

/-- `x509_crt_verify_chain`: run the loop from the end-entity certificate
with an empty chain. -/
def x509_crt_verify_chain (env : Env) (crt : Cert) (rest : List Cert) : ChainResult :=
  x509_crt_verify_chain_loop env (maxIntermediateCA + 2) crt rest false 0 []

/-! ## Host-name verification (`x509_crt_verify_name`) -/

def tagClassMask : Nat := 0xC0
def asn1ContextSpecific : Nat := 0x80
def tagValueMask : Nat := 0x1F

/-- `x509_crt_check_cn`: exact case-insensitive match, else wildcard
match. -/
def x509_crt_check_cn (buf : List Char) (cn : List Char) : Bool :=
  memcasecmp cn buf || x509_check_wildcard cn buf

/-- The DER encoding of OID 2.5.4.3 (`id-at-commonName`). -/
def oidAtCn : List Nat := [85, 4, 3]

/-- `x509_crt_check_name`, the per-atom callback of the subject-DN scan:
returns 1 when the atom is a CN whose value matches the requested name. -/
def x509_crt_check_name (cn : List Char) (a : NameAtom) : Int :=
  if a.oid = oidAtCn ∧ x509_crt_check_cn a.value cn then 1 else 0

/-- `x509_crt_subject_alt_check_name`, the per-entry callback of the SAN
scan: returns 1 when the entry's content matches the requested name (its
tag is ignored by the callback). -/
def x509_crt_subject_alt_check_name (cn : List Char) (tag : Nat)
    (data : List Char) : Int :=
  let _ := tag
  if x509_crt_check_cn data cn then 1 else 0

/-- Modelled from the spec: `mbedtls_asn1_traverse_sequence_of` over an
already-delimited `SEQUENCE OF`.  Every element's tag must satisfy the
`(must_mask, must_val)` filter (else `UNEXPECTED_TAG`); elements satisfying
the `(may_mask, may_val)` filter are passed to the callback, whose nonzero
result aborts the traversal and is returned. -/
def mbedtls_asn1_traverse_sequence_of (mustMask mustVal mayMask mayVal : Nat)
    (cb : Nat → List Char → Int) : List SanEntry → Int
  | [] => 0
  | e :: rest =>
    if e.tag &&& mustMask ≠ mustVal then errUnexpectedTag
    else if e.tag &&& mayMask = mayVal then
      let r := cb e.tag e.data
      if r ≠ 0 then r
      else mbedtls_asn1_traverse_sequence_of mustMask mustVal mayMask mayVal cb rest
    else mbedtls_asn1_traverse_sequence_of mustMask mustVal mayMask mayVal cb rest

/-- Modelled from the spec: `mbedtls_x509_name_cmp_raw( subject, subject,
cb, ctx )` — comparing a well-formed name with itself always succeeds atom
by atom (the comparator is reflexive), so the net effect is to invoke the
per-atom callback in order, a nonzero callback result aborting the scan;
exhaustion returns 0 (names equal). -/
def nameSelfScan (cb : NameAtom → Int) : List NameAtom → Int
  | [] => 0
  | a :: rest =>
    let r := cb a
    if r ≠ 0 then r else nameSelfScan cb rest

/-- The scan `x509_crt_verify_name` performs (the value the C leaves in
`ret` before the final classification): the SAN dNSName traversal when the
SAN extension is present, otherwise the subject-DN CN scan. -/
def x509_crt_name_scan (crt : Cert) (cn : List Char) : Int :=
  if crt.extTypes &&& extSubjectAltName ≠ 0 then
    mbedtls_asn1_traverse_sequence_of tagClassMask asn1ContextSpecific tagValueMask 2
      (x509_crt_subject_alt_check_name cn) crt.sanEntries
  else
    nameSelfScan (x509_crt_check_name cn) crt.subjectAtoms

/-- `x509_crt_verify_name`: scan SAN dNSName entries when the SAN extension
is present, otherwise scan subject-DN CN atoms; on no match set
`BADCERT_CN_MISMATCH`.  Returns `(ret, flags)`. -/
def x509_crt_verify_name (crt : Cert) (cn : List Char) (flags : Nat) : Int × Nat :=
  if x509_crt_name_scan crt cn = 1 then (0, flags)
  else if x509_crt_name_scan crt cn ≠ 0 then
    (errX509FatalError, flags ||| badcertCnMismatch)
  else (0, flags ||| badcertCnMismatch)

/-! ## Flag merging and the top-level verifier -/

/-- The verdict-adjustment callback `f_vrfy(p_vrfy, crt, depth, &flags)`:
returns the status and the adjusted flag word. -/
abbrev VrfyCb := Cert → Nat → Nat → Int × Nat

/-- The loop of `x509_crt_merge_flags_with_cb`, iterating `i` from
`chain.length` down to 1 over `items[i-1]` (top of chain first) and OR-ing
the (possibly callback-adjusted) per-slot words into the accumulator; a
nonzero callback status aborts. -/
def x509_crt_merge_from (fVrfy : Option VrfyCb) (chain : List (Cert × Nat)) :
    Nat → Nat → Except Int Nat
  | 0, acc => .ok acc
  | i + 1, acc =>
    match fVrfy with
    | none => x509_crt_merge_from fVrfy chain i (acc ||| (chain.getD i default).2)
    | some cb =>
      if (cb (chain.getD i default).1 i (chain.getD i default).2).1 ≠ 0 then
        .error (cb (chain.getD i default).1 i (chain.getD i default).2).1
      else
        x509_crt_merge_from fVrfy chain i
          (acc ||| (cb (chain.getD i default).1 i (chain.getD i default).2).2)

/-- `x509_crt_merge_flags_with_cb`. -/
def x509_crt_merge_flags_with_cb (fVrfy : Option VrfyCb)
    (chain : List (Cert × Nat)) : Except Int Nat :=
  x509_crt_merge_from fVrfy chain chain.length 0

/-- The host-name check step of the top-level verifier: `*flags` is left
untouched on failure (the error is returned directly); on success the
end-entity flag word so far is returned. -/
def x509_ee_name_step (crt : Cert) (cn : Option (List Char)) : Except Int Nat :=
  match cn with
  | none => .ok 0
  | some s =>
    if (x509_crt_verify_name crt s 0).1 ≠ 0 then
      .error (x509_crt_verify_name crt s 0).1
    else .ok (x509_crt_verify_name crt s 0).2

/-- The end-entity key checks of the top-level verifier (profile PK
algorithm and key strength). -/
def x509_ee_key_flags (env : Env) (crt : Cert) : Nat :=
  (if !x509_profile_check_pk_alg env.profile crt.pkType then badcertBadPk else 0)
  ||| (if !env.profileKeyOk crt then badcertBadKey else 0)

/-- `ver_chain.items[0].flags |= ee_flags`. -/
def x509_bump_ee_flags (eeFlags : Nat) : List (Cert × Nat) → List (Cert × Nat)
  | [] => []
  | (c, f) :: t => (c, f ||| eeFlags) :: t

structure VerifyResult where
  ret : Int
  flags : Nat
  deriving DecidableEq

/-- `x509_crt_verify_restartable_ca_cb`, the common core of
`mbedtls_x509_crt_verify` and its with_profile / with_ca_cb / restartable
variants (all of which merely plumb arguments into it), compiled with
`rs_ctx == NULL`.  Returns the status and the output `*flags` word. -/
def x509_crt_verify_restartable_ca_cb (env : Env) (crt : Cert) (rest : List Cert)
    (cn : Option (List Char)) (fVrfy : Option VrfyCb) : VerifyResult :=
  if !env.profilePresent then ⟨errX509BadInputData, allOnes32⟩
  else
    match x509_ee_name_step crt cn with
    | .error r => ⟨r, 0⟩
    | .ok eeNameFlags =>
      if !env.pkAcquireOk crt then ⟨errX509FatalError, 0⟩
      else
        let eeFlags := eeNameFlags ||| x509_ee_key_flags env crt
        match x509_crt_verify_chain env crt rest with
        | .ok chain =>
          match x509_crt_merge_flags_with_cb fVrfy (x509_bump_ee_flags eeFlags chain) with
          | .error r =>
            ⟨if r = errX509CertVerifyFailed then errX509FatalError else r, allOnes32⟩
          | .ok folded =>
            if folded ≠ 0 then ⟨errX509CertVerifyFailed, folded⟩ else ⟨0, folded⟩
        | .fatal _ => ⟨errX509FatalError, allOnes32⟩
        | .outOfFuel _ => ⟨errX509FatalError, allOnes32⟩

/-! ## Specification-side definitions used to characterize the scans -/

/-- A candidate is *suitable* (spec §4.E.4): name/CA-bit/key-usage
parenting checks pass, the pathlen budget is satisfied, and — when
scanning trusted roots — the signature of the child by the candidate
verifies. -/
def x509_suitable (env : Env) (child : Cert) (top : Bool)
    (pathCnt selfCnt : Nat) (p : Cert) : Bool :=
  x509_crt_check_parent env.kuEnabled child.issuer p top
  && x509_path_len_ok p.maxPathlen pathCnt selfCnt
  && (!top || x509_crt_check_signature_ok env child p)

/-- First element of a list satisfying `f`, together with the tail after
it (the linked-list `->next`). -/
def findWithTail (f : Cert → Bool) : List Cert → Option (Cert × List Cert)
  | [] => none
  | c :: rest => if f c then some (c, rest) else findWithTail f rest

/-- Whether a `ChainResult` is the `MBEDTLS_ERR_X509_FATAL_ERROR` outcome. -/
def ChainResult.isFatal : ChainResult → Bool
  | .fatal _ => true
  | _ => false

/-! ## Concrete material for the closed-form theorems -/

/-- A well-formed v3 CA certificate template. -/
def baseCert : Cert :=
  { subject := 0, issuer := 0, version := 3, caIstrue := true, extTypes := 0,
    keyUsage := 0, maxPathlen := 0, validFrom := 0, validTo := 0,
    sigMd := 3, sigPk := 1, pkType := 1, raw := [], sanEntries := [],
    subjectAtoms := [] }

/-- A CA certificate with the given subject and issuer codes (distinct DER
for distinct name pairs). -/
def mkCert (subj iss : Nat) : Cert :=
  { baseCert with subject := subj, issuer := iss, raw := [subj, iss] }

/-- An environment in which every oracle succeeds: certificates are
time-valid, signatures verify, caches are available, keys pass the
profile, CRLs raise no flags; the profile admits the algorithm
identifiers used by `baseCert`. -/
def envAllOk : Env :=
  { isPast := fun _ => true, isFuture := fun _ => true,
    checkSig := fun _ _ => true, pkAcquireOk := fun _ => true,
    profileKeyOk := fun _ => true, crlFlags := fun _ _ => 0,
    kuEnabled := true, profile := ⟨0xFFFFFFF, 0xFFFFFFF⟩,
    profilePresent := true, trustCa := [mkCert 11 11], caCb := none }

/-- The supplied intermediate list `I1 → I2 → … → I10` of the chain-length
scenario: `I_k` has subject `k` and issuer `k + 1`; the trusted root of
`envAllOk` has subject 11. -/
def chainTenIntermediates : List Cert :=
  [mkCert 1 2, mkCert 2 3, mkCert 3 4, mkCert 4 5, mkCert 5 6,
   mkCert 6 7, mkCert 7 8, mkCert 8 9, mkCert 9 10, mkCert 10 11]

/-- The end-entity certificate of the chain-length scenario. -/
def certEE : Cert := mkCert 100 1

/-- An environment whose public-key cache acquisition always fails (e.g.
allocation failure while materializing a pk context on demand). -/
def envNoPk : Env := { envAllOk with pkAcquireOk := fun _ => false }

/-- A time snapshot in which no time code is past and none is future, so
every certificate is inside its validity window and raises no
EXPIRED/FUTURE flags. -/
def envInWindow : Env :=
  { envAllOk with
    isPast := (fun _ => false), isFuture := (fun _ => false),
    trustCa := [mkCert 5 5] }

/-! # Theorems -/

/-- C8: for every candidate name `cn` and pattern `buf`, the wildcard
matcher reports a match exactly when `buf` begins with `*.` (and has
length at least 3), the first `.` in `cn` occurs at some position `k > 0`,
and `buf` starting at index 1 equals `cn` starting at index `k`
case-insensitively; in particular the pattern `*.example.com` matches
`foo.example.com` but matches neither `example.com` nor
`a.b.example.com`. -/
theorem claim_C8_wildcard :
    (∀ cn buf : List Char,
       x509_check_wildcard cn buf = true ↔
         (3 ≤ buf.length ∧ buf.take 2 = ['*', '.'] ∧
          ∃ k, cn.findIdx? (· = '.') = some k ∧ 0 < k ∧
            memcasecmp (buf.drop 1) (cn.drop k) = true)) ∧
    x509_check_wildcard ("foo.example.com").data ("*.example.com").data = true ∧
    x509_check_wildcard ("example.com").data ("*.example.com").data = false ∧
    x509_check_wildcard ("a.b.example.com").data ("*.example.com").data = false := by
  refine ⟨?_, by decide, by decide, by decide⟩
  intro cn buf
  rcases buf with _ | ⟨b0, buf⟩
  · simp [x509_check_wildcard]
  rcases buf with _ | ⟨b1, buf⟩
  · simp [x509_check_wildcard]
  rcases buf with _ | ⟨b2, t⟩
  · simp [x509_check_wildcard]
  simp only [x509_check_wildcard, firstDotIdx, List.length_cons, List.headD,
    List.drop_one, List.tail_cons, List.take_succ_cons, List.take_zero]
  rcases hf : cn.findIdx? (· = '.') with _ | k
  · simp only [hf]
    constructor
    · intro h
      exfalso
      revert h
      split_ifs <;> simp
    · rintro ⟨-, -, k, hk, -⟩
      cases hk
  · simp only [hf]
    by_cases hk0 : k = 0
    · subst hk0
      constructor
      · intro h
        exfalso
        revert h
        split_ifs <;> simp_all
      · rintro ⟨-, -, k, hk, hkpos, -⟩
        cases hk
        exact absurd hkpos (by simp)
    · constructor
      · intro h
        split_ifs at h with h1 h2 h3
        refine ⟨by omega, ?_, k, rfl, by omega, h⟩
        simp only [List.cons.injEq, and_true]
        constructor
        · by_contra hne
          exact h2 hne
        · by_contra hne
          exact h3 hne
      · rintro ⟨-, htake, k', hk', hkpos, hmem⟩
        simp only [hf, Option.some.injEq] at hk'
        subst hk'
        simp only [List.cons.injEq, and_true] at htake
        obtain ⟨hb0, hb1⟩ := htake
        split_ifs with h1 h2 h3
        · omega
        · exact absurd hb0 (by simpa using h2)
        · exact absurd hb1 (by simpa using h3)
        · exact hmem

/-! ## Helper lemmas on the BasicConstraints parser -/

theorem asn1_get_bool_val {s : List Nat} {v : Nat} {s' : List Nat}
    (h : asn1_get_bool s = .ok (v, s')) : v = 0 ∨ v = 1 := by
  unfold asn1_get_bool at h
  split at h
  · simp at h
  · split at h
    · simp at h
    · split at h
      · simp at h
      · simp only [Except.ok.injEq, Prod.mk.injEq] at h
        obtain ⟨hv, -⟩ := h
        subst hv
        split <;> simp

theorem x509_bc_parse_ca_val {s : List Nat} {v : Nat} {s' : List Nat}
    (h : x509_bc_parse_ca s = .ok (v, s')) : v = 0 ∨ v = 1 := by
  unfold x509_bc_parse_ca at h
  split at h
  · next r heq =>
    cases h
    exact asn1_get_bool_val heq
  · split at h
    · split at h
      · next n rest heq2 =>
        simp only [Except.ok.injEq, Prod.mk.injEq] at h
        obtain ⟨hv, -⟩ := h
        subst hv
        split <;> simp
      · simp at h
    · simp at h

theorem asn1_get_bool_err_not_unexpected {s : List Nat} {e : Int}
    (hs : s.headD 0 = tagBoolean) (h : asn1_get_bool s = .error e) :
    e ≠ errUnexpectedTag := by
  unfold asn1_get_bool at h
  split at h
  · next e' heq =>
    cases h
    rcases s with _ | ⟨t, rest⟩
    · simp [tagBoolean] at hs
    · simp only [List.headD] at hs
      subst hs
      rcases rest with _ | ⟨l, rest2⟩
      · simp only [asn1_get_tag, ne_eq, not_true_eq_false, if_false,
          Except.error.injEq] at heq
        subst heq
        decide
      · simp only [asn1_get_tag, ne_eq, not_true_eq_false, if_false] at heq
        split at heq
        · cases heq
          decide
        · split at heq
          · cases heq
            decide
          · simp at heq
  · split at h
    · cases h
      decide
    · split at h
      · cases h
        decide
      · simp at h

/-- When the first content byte is the BOOLEAN tag, the `cA` parse step is
exactly `mbedtls_asn1_get_bool` (the INTEGER fallback cannot trigger). -/
theorem x509_bc_parse_ca_of_bool_first {s : List Nat}
    (hs : s.headD 0 = tagBoolean) :
    x509_bc_parse_ca s = asn1_get_bool s := by
  unfold x509_bc_parse_ca
  split
  · next r heq => rw [heq]
  · next e heq =>
    rw [heq]
    rw [if_neg (asn1_get_bool_err_not_unexpected hs heq)]

/-- C10: when the `cA` field fails to parse as an ASN.1 BOOLEAN with an
unexpected-tag error, the parser falls back to accepting an ASN.1 INTEGER
in its place, normalizing any nonzero value to 1; therefore after every
successful BasicConstraints parse, `ca_istrue` is either 0 or 1. -/
theorem claim_C10_ca_bool_fallback :
    (∀ s : List Nat, asn1_get_bool s = .error errUnexpectedTag →
       x509_bc_parse_ca s =
         (match asn1_get_int s with
          | .ok (v, rest) => .ok (if v ≠ 0 then 1 else 0, rest)
          | .error e => .error e)) ∧
    (∀ input ca mp, x509_get_basic_constraints input = .ok (ca, mp) →
       ca = 0 ∨ ca = 1) := by
  constructor
  · intro s h
    unfold x509_bc_parse_ca
    rw [h]
    simp
  · intro input ca mp h
    unfold x509_get_basic_constraints at h
    split at h
    · simp at h
    · unfold x509_bc_after_seq at h
      split at h
      · cases h
        exact Or.inl rfl
      · split at h
        · simp at h
        · next ca' s1 heq =>
          have hv := x509_bc_parse_ca_val heq
          split at h
          · cases h
            exact hv
          · split at h
            · simp at h
            · split at h
              · simp at h
              · cases h
                exact hv

/-- C10 witness: on the content `SEQUENCE { INTEGER 5 }` the BOOLEAN read
fails with an unexpected tag, the fallback accepts the INTEGER, and the
resulting `ca_istrue` is 0 or 1. -/
theorem claim_C10_witness :
    (x509_bc_parse_ca [tagInteger, 1, 5] =
      (match asn1_get_int [tagInteger, 1, 5] with
       | .ok (v, rest) => .ok (if v ≠ 0 then 1 else 0, rest)
       | .error e => .error e)) ∧
    ((1 : Nat) = 0 ∨ (1 : Nat) = 1) :=
  ⟨claim_C10_ca_bool_fallback.1 [tagInteger, 1, 5] (by rfl),
   claim_C10_ca_bool_fallback.2 [tagSequence, 3, tagInteger, 1, 5] 1 0 (by rfl)⟩

/-- C5 counterexample: on the DER-valid BasicConstraints encoding
`SEQUENCE { INTEGER 5 }` (cA absent and defaulted, pathLenConstraint 5)
the parse succeeds with `max_pathlen = 0` (and `ca_istrue = 1`): the
INTEGER is consumed by the cA fallback, so the stored `max_pathlen` is not
the encoded pathLenConstraint plus one. -/
theorem claim_C5_counterexample :
    x509_get_basic_constraints [tagSequence, 3, tagInteger, 1, 5] = .ok (1, 0) ∧
    specPathLenConstraint [tagSequence, 3, tagInteger, 1, 5] = some 5 ∧
    (0 : Nat) ≠ 5 + 1 :=
  ⟨by rfl, by rfl, by decide⟩

/-- C5 amended: for every BasicConstraints extension that parses
successfully in which the optional `cA` field is encoded as a BOOLEAN (or
the content is empty), the stored `max_pathlen` equals the encoded
pathLenConstraint plus one and equals 0 when the field is absent — so the
user-visible constraint is the stored value minus one, 0 meaning none;
when the `cA` BOOLEAN is absent, however, a leading INTEGER is consumed as
`cA` by the fallback, so a content consisting of a single INTEGER `n`
yields `max_pathlen = 0` rather than `n + 1`. -/
theorem specStripBool_of_ok {s0 : List Nat} {v : Nat} {r : List Nat}
    (h : asn1_get_bool s0 = .ok (v, r)) : specStripBool s0 = r := by
  unfold specStripBool
  rw [h]

/-- The spec/code correspondence at the level of the content octets, under
the assumption that the optional `cA` field is encoded as the BOOLEAN the
syntax prescribes (or the content is empty). -/
theorem bc_content_spec {s0 : List Nat} {ca mp : Nat}
    (h : x509_bc_after_seq s0 = .ok (ca, mp))
    (hs : s0.headD 0 = tagBoolean ∨ s0 = []) :
    (specPathLenFromContent s0 = none ∧ mp = 0) ∨
    (∃ n, specPathLenFromContent s0 = some n ∧ mp = n + 1) := by
  unfold x509_bc_after_seq at h
  by_cases hs0 : s0 = []
  · subst hs0
    rw [if_pos rfl] at h
    simp only [Except.ok.injEq, Prod.mk.injEq] at h
    obtain ⟨-, hmp⟩ := h
    subst hmp
    exact Or.inl ⟨by rfl, rfl⟩
  · have hhead : s0.headD 0 = tagBoolean := hs.resolve_right hs0
    rw [if_neg hs0] at h
    rw [x509_bc_parse_ca_of_bool_first hhead] at h
    unfold specPathLenFromContent
    split at h
    · simp at h
    · next cab s1 heq =>
      rw [specStripBool_of_ok heq]
      by_cases hs1 : s1 = []
      · subst hs1
        rw [if_pos rfl] at h
        simp only [Except.ok.injEq, Prod.mk.injEq] at h
        obtain ⟨-, hmp⟩ := h
        subst hmp
        exact Or.inl ⟨by rfl, rfl⟩
      · rw [if_neg hs1] at h
        split at h
        · simp at h
        · next n s2 heq2 =>
          rw [heq2]
          by_cases hs2 : s2 = []
          · subst hs2
            rw [if_neg (fun hc => hc rfl)] at h
            simp only [Except.ok.injEq, Prod.mk.injEq] at h
            obtain ⟨-, hmp⟩ := h
            subst hmp
            exact Or.inr ⟨n, by simp, rfl⟩
          · rw [if_pos hs2] at h
            simp at h

theorem claim_C5_amended :
    (∀ input ca mp, x509_get_basic_constraints input = .ok (ca, mp) →
       (bcContentStartsWithBool input = true ∨ bcContentEmpty input = true) →
       ((specPathLenConstraint input = none ∧ mp = 0) ∨
        (∃ n, specPathLenConstraint input = some n ∧ mp = n + 1))) ∧
    (∀ n : Nat, n < 128 →
       x509_get_basic_constraints [tagSequence, 3, tagInteger, 1, n] =
         .ok (if n ≠ 0 then 1 else 0, 0)) := by
  constructor
  · intro input ca mp h hstart
    unfold x509_get_basic_constraints at h
    split at h
    · simp at h
    · next a s0 heq =>
      have hspec : specPathLenConstraint input = specPathLenFromContent s0 := by
        unfold specPathLenConstraint
        rw [heq]
      have hstart2 : s0.headD 0 = tagBoolean ∨ s0 = [] := by
        unfold bcContentStartsWithBool bcContentEmpty at hstart
        rw [heq] at hstart
        simpa using hstart
      rw [hspec]
      exact bc_content_spec h hstart2
  · intro n hn
    have h128 : ¬(128 ≤ n) := by omega
    simp [x509_get_basic_constraints, x509_bc_after_seq, x509_bc_parse_ca,
      asn1_get_bool, asn1_get_int, asn1_get_tag, tagSequence, tagBoolean,
      tagInteger, errUnexpectedTag, h128]

/-! ## Helper lemmas on the find-parent scan -/

theorem band_left {a b : Bool} (h : (a && b) = true) : a = true := by
  cases a <;> simp_all

theorem band_right {a b : Bool} (h : (a && b) = true) : b = true := by
  cases a <;> simp_all

theorem findWithTail_prop {f : Cert → Bool} :
    ∀ {l : List Cert} {p : Cert} {tail : List Cert},
      findWithTail f l = some (p, tail) → f p = true := by
  intro l
  induction l with
  | nil =>
    intro p tail h
    simp [findWithTail] at h
  | cons c rest ih =>
    intro p tail h
    unfold findWithTail at h
    split at h
    · next hf =>
      cases h
      exact hf
    · exact ih h

/-- The find-parent scan with an explicit fallback accumulator: it returns
the first suitable time-valid candidate, else the incoming fallback, else
the first suitable time-invalid candidate. -/
theorem find_parent_in_aux_spec (env : Env) (child : Cert) (top : Bool)
    (pathCnt selfCnt : Nat) :
    ∀ (cands : List Cert) (fb : Option (Cert × List Cert × Bool)),
      x509_crt_find_parent_in_aux env child top pathCnt selfCnt cands fb =
        (match findWithTail (fun p => x509_suitable env child top pathCnt selfCnt p
             && x509_parent_valid env p) cands with
         | some (p, tail) => some (p, tail, x509_crt_check_signature_ok env child p)
         | none =>
           match fb with
           | some f => some f
           | none =>
             match findWithTail (fun p => x509_suitable env child top pathCnt selfCnt p
                 && !x509_parent_valid env p) cands with
             | some (p, tail) => some (p, tail, x509_crt_check_signature_ok env child p)
             | none => none) := by
  intro cands
  induction cands with
  | nil =>
    intro fb
    rcases fb with _ | f <;> simp [x509_crt_find_parent_in_aux, findWithTail]
  | cons p rest ih =>
    intro fb
    simp only [x509_crt_find_parent_in_aux]
    cases hm : x509_crt_check_parent env.kuEnabled child.issuer p top <;>
      cases hl : x509_path_len_ok p.maxPathlen pathCnt selfCnt <;>
        cases hv : x509_parent_valid env p <;>
          cases hs : x509_crt_check_signature_ok env child p <;>
            cases top <;> rcases fb with _ | f <;>
              simp [ih, findWithTail, x509_suitable, hm, hl, hv, hs]

/-- Instantiation at an empty fallback: what `x509_crt_find_parent_in`
returns. -/
theorem find_parent_in_eq (env : Env) (child : Cert) (top : Bool)
    (pathCnt selfCnt : Nat) (cands : List Cert) :
    x509_crt_find_parent_in env child cands top pathCnt selfCnt =
      (match findWithTail (fun p => x509_suitable env child top pathCnt selfCnt p
           && x509_parent_valid env p) cands with
       | some (p, tail) => some (p, tail, x509_crt_check_signature_ok env child p)
       | none =>
         match findWithTail (fun p => x509_suitable env child top pathCnt selfCnt p
             && !x509_parent_valid env p) cands with
         | some (p, tail) => some (p, tail, x509_crt_check_signature_ok env child p)
         | none => none) := by
  unfold x509_crt_find_parent_in
  rw [find_parent_in_aux_spec]

/-- Any parent returned by the scan is suitable. -/
theorem find_parent_in_suitable {env : Env} {child : Cert} {cands : List Cert}
    {top : Bool} {pathCnt selfCnt : Nat} {p : Cert} {tail : List Cert} {sg : Bool}
    (h : x509_crt_find_parent_in env child cands top pathCnt selfCnt
          = some (p, tail, sg)) :
    x509_suitable env child top pathCnt selfCnt p = true := by
  rw [find_parent_in_eq] at h
  split at h
  · next q t heq =>
    cases h
    exact band_left (findWithTail_prop heq)
  · split at h
    · next q t heq =>
      cases h
      exact band_left (findWithTail_prop heq)
    · simp at h

/-- C6: for every find-parent scan over a candidate list, the returned
parent is the first suitable candidate that is within its validity window
if any exists, and otherwise the first suitable candidate outside its
validity window (the fallback); suitability over the trusted roots
(`top`) includes the signature check over the child, so a trusted
candidate whose signature fails is skipped rather than returned. -/
theorem claim_C6_find_parent_first_match :
    ∀ (env : Env) (child : Cert) (cands : List Cert) (top : Bool)
      (pathCnt selfCnt : Nat),
      x509_crt_find_parent_in env child cands top pathCnt selfCnt =
        (match findWithTail (fun p => x509_suitable env child top pathCnt selfCnt p
             && x509_parent_valid env p) cands with
         | some (p, tail) => some (p, tail, x509_crt_check_signature_ok env child p)
         | none =>
           match findWithTail (fun p => x509_suitable env child top pathCnt selfCnt p
               && !x509_parent_valid env p) cands with
           | some (p, tail) => some (p, tail, x509_crt_check_signature_ok env child p)
           | none => none) :=
  fun env child cands top pathCnt selfCnt =>
    find_parent_in_eq env child top pathCnt selfCnt cands

/-- C3: `parent_match` holds exactly when the candidate's subject equals
the child's issuer and, unless the candidate is a trusted root with
version < 3, its CA bit is set and (when key-usage checking is enabled)
its key usage permits KEY_CERT_SIGN; and every candidate the scan returns
has `parent_match` true (non-matching candidates are skipped). -/
theorem claim_C3_parent_match :
    (∀ (ku : Bool) (childIssuer : Nat) (parent : Cert) (top : Bool),
       x509_crt_check_parent ku childIssuer parent top = true ↔
         (childIssuer = parent.subject ∧
          (¬(top = true ∧ parent.version < 3) →
            (parent.caIstrue = true ∧
             (ku = true →
              x509_crt_check_key_usage_frame parent kuKeyCertSign = true))))) ∧
    (∀ (env : Env) (child : Cert) (cands : List Cert) (top : Bool)
       (pathCnt selfCnt : Nat) (p : Cert) (tail : List Cert) (sg : Bool),
       x509_crt_find_parent_in env child cands top pathCnt selfCnt
          = some (p, tail, sg) →
       x509_crt_check_parent env.kuEnabled child.issuer p top = true) := by
  constructor
  · intro ku ci parent top
    cases hkuf : x509_crt_check_key_usage_frame parent kuKeyCertSign <;>
      cases hca : parent.caIstrue <;> cases ku <;> cases top <;>
        by_cases hn : ci = parent.subject <;>
          by_cases hv : parent.version < 3 <;>
            simp [x509_crt_check_parent, hkuf, hca, hn, hv]
  · intro env child cands top pathCnt selfCnt p tail sg h
    have hs := find_parent_in_suitable h
    exact band_left (band_left hs)

/-- C4: `path_len_ok` is computed as
`!(max_pathlen > 0 ∧ max_pathlen < 1 + path_cnt − self_cnt)` (the unsigned
subtraction agreeing with the integer one since `self_cnt ≤ path_cnt`);
`self_cnt` is incremented exactly when the chain already holds at least two
certificates and the current child is self-issued; and every candidate the
scan returns has `path_len_ok` true (others are skipped). -/
theorem claim_C4_path_len :
    (∀ mp pathCnt selfCnt : Nat, selfCnt ≤ pathCnt → pathCnt + 1 < 2 ^ 32 →
       (x509_path_len_ok mp pathCnt selfCnt = true ↔
         ¬(0 < mp ∧ mp < 1 + pathCnt - selfCnt))) ∧
    (∀ (chainLen selfCnt : Nat) (selfIssued : Bool), 1 ≤ chainLen →
       x509_next_self_cnt chainLen selfIssued selfCnt =
         if 2 ≤ chainLen ∧ selfIssued then selfCnt + 1 else selfCnt) ∧
    (∀ (env : Env) (child : Cert) (cands : List Cert) (top : Bool)
       (pathCnt selfCnt : Nat) (p : Cert) (tail : List Cert) (sg : Bool),
       x509_crt_find_parent_in env child cands top pathCnt selfCnt
          = some (p, tail, sg) →
       x509_path_len_ok p.maxPathlen pathCnt selfCnt = true) := by
  refine ⟨?_, ?_, ?_⟩
  · intro mp pc sc h1 h2
    have hsc : sc % 2 ^ 32 = sc := Nat.mod_eq_of_lt (by omega)
    have hmod : (1 + pc + (2 ^ 32 - sc % 2 ^ 32)) % 2 ^ 32 = 1 + pc - sc := by
      rw [hsc]
      have hrw : 1 + pc + (2 ^ 32 - sc) = 2 ^ 32 + (1 + pc - sc) := by omega
      rw [hrw, Nat.add_mod_left]
      exact Nat.mod_eq_of_lt (by omega)
    unfold x509_path_len_ok
    rw [hmod]
    simp
    omega
  · intro len sc si hlen
    unfold x509_next_self_cnt
    cases si
    · simp
    · simp
      split_ifs <;> omega
  · intro env child cands top pathCnt selfCnt p tail sg h
    have hs := find_parent_in_suitable h
    exact band_right (band_left hs)

/-! ## Helper lemmas on the chain-verification loop -/

/-- Whatever the oracles do, the chain built by the loop (also the partial
chain carried on a fatal abort) never exceeds `MAX_INTERMEDIATE_CA + 2`
entries, the capacity of the C `items[]` array. -/
theorem verify_chain_loop_len_bound :
    ∀ (fuel : Nat) (env : Env) (child : Cert) (rest : List Cert)
      (trusted : Bool) (selfCnt : Nat) (chain : List (Cert × Nat)),
      (trusted = true → chain.length ≤ maxIntermediateCA + 1) →
      (trusted = false → chain.length ≤ maxIntermediateCA) →
      ((x509_crt_verify_chain_loop env fuel child rest trusted selfCnt
          chain).chain).length ≤ maxIntermediateCA + 2 := by
  intro fuel
  induction fuel with
  | zero =>
    intro env child rest trusted selfCnt chain h1 h0
    simp only [x509_crt_verify_chain_loop, ChainResult.chain]
    cases trusted
    · have := h0 rfl
      omega
    · have := h1 rfl
      omega
  | succ fuel ih =>
    intro env child rest trusted selfCnt chain h1 h0
    unfold x509_crt_verify_chain_loop
    split
    · simp only [ChainResult.chain, List.length_append, List.length_cons,
        List.length_nil]
      cases trusted
      · have := h0 rfl
        omega
      · have := h1 rfl
        omega
    · cases trusted
      · have hlen := h0 rfl
        simp only [Bool.false_eq_true, if_false]
        split
        · simp only [ChainResult.chain, List.length_append, List.length_cons,
            List.length_nil]
          omega
        · split
          · simp only [ChainResult.chain, List.length_append, List.length_cons,
              List.length_nil]
            omega
          · split
            · simp only [ChainResult.chain, List.length_append, List.length_cons,
                List.length_nil]
              omega
            · next hnofatal =>
              split
              · simp only [ChainResult.chain, List.length_append,
                  List.length_cons, List.length_nil]
                omega
              · apply ih
                · intro hpt
                  simp only [List.length_append, List.length_cons,
                    List.length_nil]
                  omega
                · intro hpf
                  subst hpf
                  simp only [Bool.not_false, true_and, not_lt] at hnofatal
                  simp only [List.length_append, List.length_cons,
                    List.length_nil]
                  omega
      · have hlen := h1 rfl
        simp only [if_true]
        simp only [ChainResult.chain, List.length_append, List.length_cons,
          List.length_nil]
        omega

/-- With the fuel `maxIntermediateCA + 2` the loop never exhausts its
recursion budget: the fueled model covers the C `while (1)` loop exactly. -/
theorem verify_chain_loop_no_fuel_exhaustion :
    ∀ (fuel : Nat) (env : Env) (child : Cert) (rest : List Cert)
      (trusted : Bool) (selfCnt : Nat) (chain c : List (Cert × Nat)),
      (trusted = true → 1 ≤ fuel) →
      (trusted = false → chain.length ≤ maxIntermediateCA ∧
        maxIntermediateCA + 2 ≤ fuel + chain.length) →
      x509_crt_verify_chain_loop env fuel child rest trusted selfCnt chain
        ≠ .outOfFuel c := by
  intro fuel
  induction fuel with
  | zero =>
    intro env child rest trusted selfCnt chain c h1 h0
    cases trusted
    · have := h0 rfl
      omega
    · have := h1 rfl
      omega
  | succ fuel ih =>
    intro env child rest trusted selfCnt chain c h1 h0
    unfold x509_crt_verify_chain_loop
    split
    · simp
    · cases trusted
      · obtain ⟨hlen, hfuel⟩ := h0 rfl
        simp only [Bool.false_eq_true, if_false]
        split
        · simp
        · split
          · simp
          · split
            · simp
            · next hnofatal =>
              split
              · simp
              · apply ih
                · intro hpt
                  omega
                · intro hpf
                  subst hpf
                  simp only [Bool.not_false, true_and, not_lt] at hnofatal
                  simp only [List.length_append, List.length_cons,
                    List.length_nil]
                  omega
      · simp only [if_true]
        simp

/-- C2: if find-parent returns an untrusted parent while the verify chain
already holds more than `MAX_INTERMEDIATE_CA` certificates, the loop
aborts with FATAL_ERROR before appending that parent, so the chain
(including any partial chain on a fatal abort) never exceeds
`MAX_INTERMEDIATE_CA + 2` entries and every append stays within the
fixed-capacity array; the fueled model never exhausts its budget; and the
concrete chain `EE → I1 → … → I10 → R` with `MAX_INTERMEDIATE_CA = 8`
yields FATAL_ERROR. -/
theorem claim_C2_chain_length_bound :
    (∀ (env : Env) (crt : Cert) (rest : List Cert),
       ((x509_crt_verify_chain env crt rest).chain).length
         ≤ maxIntermediateCA + 2) ∧
    (∀ (env : Env) (crt : Cert) (rest : List Cert) (c : List (Cert × Nat)),
       x509_crt_verify_chain env crt rest ≠ .outOfFuel c) ∧
    (x509_crt_verify_chain envAllOk certEE chainTenIntermediates).isFatal = true ∧
    maxIntermediateCA = 8 := by
  refine ⟨?_, ?_, by rfl, rfl⟩
  · intro env crt rest
    apply verify_chain_loop_len_bound
    · intro h
      cases h
    · intro h
      simp
  · intro env crt rest c
    apply verify_chain_loop_no_fuel_exhaustion
    · intro h
      cases h
    · intro h
      simp

/-- C7: a self-issued certificate `R` (issuer DN equals subject DN)
verified as a one-element chain, whose DER is byte-identical to an entry
of the trust list, which is within its validity window, whose signature
hash and PK algorithms and key pass the profile, with no host name
requested, verifies with status 0 and flag word 0 (the EE-locally-trusted
shortcut). -/
theorem claim_C7_trusted_self_signed (env : Env) (r : Cert) (rest : List Cert)
    (hself : r.issuer = r.subject)
    (htrust : ∃ t ∈ env.trustCa, r.raw = t.raw)
    (hexp : env.isPast r.validTo = false)
    (hfut : env.isFuture r.validFrom = false)
    (hmd : x509_profile_check_md_alg env.profile r.sigMd = true)
    (hpk : x509_profile_check_pk_alg env.profile r.sigPk = true)
    (hpkt : x509_profile_check_pk_alg env.profile r.pkType = true)
    (hkey : env.profileKeyOk r = true)
    (hacq : env.pkAcquireOk r = true)
    (hprof : env.profilePresent = true)
    (hcb : env.caCb = none) :
    x509_crt_verify_restartable_ca_cb env r rest none none = ⟨0, 0⟩ := by
  have hee : x509_crt_check_ee_locally_trusted r env.trustCa = true := by
    unfold x509_crt_check_ee_locally_trusted
    rw [List.any_eq_true]
    obtain ⟨t, ht, hr⟩ := htrust
    exact ⟨t, ht, by simp [hr]⟩
  have hchain : x509_crt_verify_chain env r rest = .ok [(r, 0)] := by
    have h10 : x509_crt_verify_chain env r rest =
        x509_crt_verify_chain_loop env (maxIntermediateCA + 1 + 1) r rest
          false 0 [] := rfl
    rw [h10]
    unfold x509_crt_verify_chain_loop
    rw [hcb]
    simp [hexp, hfut, hmd, hpk, hee, hself]
  have hkf : x509_ee_key_flags env r = 0 := by
    simp [x509_ee_key_flags, hpkt, hkey]
  have hmerge : x509_crt_merge_flags_with_cb none [(r, 0)] = .ok 0 := by
    unfold x509_crt_merge_flags_with_cb
    simp [x509_crt_merge_from]
  unfold x509_crt_verify_restartable_ca_cb
  rw [hprof, hchain]
  simp [x509_ee_name_step, x509_bump_ee_flags, hacq, hkf, hmerge]

/-- C7 witness: a concrete self-issued certificate in the trust list,
inside its validity window, passing the default-like profile. -/
theorem claim_C7_witness :
    x509_crt_verify_restartable_ca_cb envInWindow (mkCert 5 5) [] none none
      = ⟨0, 0⟩ :=
  claim_C7_trusted_self_signed envInWindow (mkCert 5 5) [] rfl
    ⟨mkCert 5 5, by simp [envInWindow], rfl⟩ rfl rfl (by decide) (by decide) (by decide)
    rfl rfl rfl rfl

/-- One traversal step over an element that passes the class filter but
not the callback filter: the element is skipped. -/
theorem traverse_step_skip {mm mv km kv : Nat} {cb : Nat → List Char → Int}
    {e : SanEntry} {rest : List SanEntry}
    (h1 : e.tag &&& mm = mv) (h2 : ¬(e.tag &&& km = kv)) :
    mbedtls_asn1_traverse_sequence_of mm mv km kv cb (e :: rest) =
      mbedtls_asn1_traverse_sequence_of mm mv km kv cb rest := by
  conv_lhs => simp only [mbedtls_asn1_traverse_sequence_of]
  rw [if_neg (by simp [h1]), if_neg h2]

/-- One traversal step over an element passing both filters: the callback
decides. -/
theorem traverse_step_cb {mm mv km kv : Nat} {cb : Nat → List Char → Int}
    {e : SanEntry} {rest : List SanEntry}
    (h1 : e.tag &&& mm = mv) (h2 : e.tag &&& km = kv) :
    mbedtls_asn1_traverse_sequence_of mm mv km kv cb (e :: rest) =
      (if cb e.tag e.data ≠ 0 then cb e.tag e.data
       else mbedtls_asn1_traverse_sequence_of mm mv km kv cb rest) := by
  conv_lhs => simp only [mbedtls_asn1_traverse_sequence_of]
  rw [if_neg (by simp [h1]), if_pos h2]

/-- If every element the traversal reaches is well-classed and every
dNSName (`[2]`) element makes the callback return 0, the traversal
returns 0 (no match, no error). -/
theorem traverse_all_zero {cb : Nat → List Char → Int} :
    ∀ {entries : List SanEntry},
      (∀ e ∈ entries, e.tag &&& tagClassMask = asn1ContextSpecific) →
      (∀ e ∈ entries, e.tag &&& tagValueMask = 2 → cb e.tag e.data = 0) →
      mbedtls_asn1_traverse_sequence_of tagClassMask asn1ContextSpecific
        tagValueMask 2 cb entries = 0 := by
  intro entries
  induction entries with
  | nil =>
    intro hclass hzero
    rfl
  | cons e rest ih =>
    intro hclass hzero
    have hcls := hclass e (by simp)
    have ihr := ih (fun x hx => hclass x (by simp [hx]))
      (fun x hx h2 => hzero x (by simp [hx]) h2)
    unfold mbedtls_asn1_traverse_sequence_of
    rw [if_neg (by simp [hcls])]
    by_cases h2 : e.tag &&& tagValueMask = 2
    · rw [if_pos h2, hzero e (by simp) h2]
      simpa using ihr
    · rw [if_neg h2]
      exact ihr

/-- C9: when the parsed frame has the SubjectAltName bit set, host-name
verification scans only the SAN entries — never the subject DN — and among
them only those with context tag 2 (dNSName); when no dNSName entry
matches, `BADCERT_CN_MISMATCH` is set (even if a subject CN atom equals
the name, by the independence in the first conjunct); the subject-DN scan
is reached only when the SAN bit is absent. -/
theorem claim_C9_san_only :
    (∀ (crt : Cert) (cn : List Char) (flags : Nat) (atoms : List NameAtom),
       crt.extTypes &&& extSubjectAltName ≠ 0 →
       x509_crt_verify_name { crt with subjectAtoms := atoms } cn flags =
         x509_crt_verify_name crt cn flags) ∧
    (∀ (cb : Nat → List Char → Int) (entries : List SanEntry),
       (∀ e ∈ entries, e.tag &&& tagClassMask = asn1ContextSpecific) →
       mbedtls_asn1_traverse_sequence_of tagClassMask asn1ContextSpecific
           tagValueMask 2 cb entries =
         mbedtls_asn1_traverse_sequence_of tagClassMask asn1ContextSpecific
           tagValueMask 2 cb
           (entries.filter (fun e => e.tag &&& tagValueMask == 2))) ∧
    (∀ (crt : Cert) (cn : List Char) (flags : Nat),
       crt.extTypes &&& extSubjectAltName ≠ 0 →
       (∀ e ∈ crt.sanEntries, e.tag &&& tagClassMask = asn1ContextSpecific) →
       (∀ e ∈ crt.sanEntries, e.tag &&& tagValueMask = 2 →
          x509_crt_check_cn e.data cn = false) →
       x509_crt_verify_name crt cn flags = (0, flags ||| badcertCnMismatch)) ∧
    (∀ (crt : Cert) (cn : List Char) (flags : Nat) (entries : List SanEntry),
       crt.extTypes &&& extSubjectAltName = 0 →
       x509_crt_verify_name { crt with sanEntries := entries } cn flags =
         x509_crt_verify_name crt cn flags) := by
  refine ⟨?_, ?_, ?_, ?_⟩
  · intro crt cn flags atoms h
    simp [x509_crt_verify_name, x509_crt_name_scan, h]
  · intro cb entries hclass
    induction entries with
    | nil => rfl
    | cons e rest ih =>
      have hcls := hclass e (by simp)
      have ihr := ih fun x hx => hclass x (by simp [hx])
      by_cases h2 : e.tag &&& tagValueMask = 2
      · have hfil : List.filter (fun x => x.tag &&& tagValueMask == 2) (e :: rest)
            = e :: List.filter (fun x => x.tag &&& tagValueMask == 2) rest := by
          simp [List.filter_cons, h2]
        rw [hfil, traverse_step_cb hcls h2, traverse_step_cb hcls h2, ihr]
      · have hfil : List.filter (fun x => x.tag &&& tagValueMask == 2) (e :: rest)
            = List.filter (fun x => x.tag &&& tagValueMask == 2) rest := by
          simp [List.filter_cons, h2]
        rw [hfil, traverse_step_skip hcls h2, ihr]
  · intro crt cn flags h hclass hnomatch
    have hz : mbedtls_asn1_traverse_sequence_of tagClassMask
        asn1ContextSpecific tagValueMask 2
        (x509_crt_subject_alt_check_name cn) crt.sanEntries = 0 := by
      apply traverse_all_zero hclass
      intro e he h2
      simp [x509_crt_subject_alt_check_name, hnomatch e he h2]
    simp [x509_crt_verify_name, x509_crt_name_scan, h, hz]
  · intro crt cn flags entries h
    simp [x509_crt_verify_name, x509_crt_name_scan, h]

/-! ## Helper lemmas on the top-level verifier -/

theorem verify_name_ret (crt : Cert) (cn : List Char) (flags : Nat) :
    (x509_crt_verify_name crt cn flags).1 = 0 ∨
    (x509_crt_verify_name crt cn flags).1 = errX509FatalError := by
  unfold x509_crt_verify_name
  split
  · exact Or.inl rfl
  · split
    · exact Or.inr rfl
    · exact Or.inl rfl

theorem x509_ee_name_step_err {crt : Cert} {cn : Option (List Char)} {e : Int}
    (h : x509_ee_name_step crt cn = .error e) : e = errX509FatalError := by
  unfold x509_ee_name_step at h
  split at h
  · simp at h
  · next cnv sv =>
    split at h
    · next hne =>
      rcases verify_name_ret crt sv 0 with h0 | hf
      · exact absurd h0 hne
      · have he : (x509_crt_verify_name crt sv 0).1 = e := by injection h
        rw [← he]
        exact hf
    · simp at h

theorem merge_from_err_ne_zero {fVrfy : Option VrfyCb}
    {chain : List (Cert × Nat)} :
    ∀ {i acc : Nat} {e : Int},
      x509_crt_merge_from fVrfy chain i acc = .error e → e ≠ 0 := by
  intro i
  induction i with
  | zero =>
    intro acc e h
    simp [x509_crt_merge_from] at h
  | succ i ih =>
    intro acc e h
    unfold x509_crt_merge_from at h
    split at h
    · exact ih h
    · split at h
      · next hr =>
        cases h
        exact hr
      · exact ih h

theorem merge_err_ne_zero {fVrfy : Option VrfyCb} {chain : List (Cert × Nat)}
    {e : Int} (h : x509_crt_merge_flags_with_cb fVrfy chain = .error e) :
    e ≠ 0 :=
  merge_from_err_ne_zero h

/-- C1 counterexample: when acquiring the end-entity public key fails (an
allocation failure on the on-demand cache), `mbedtls_x509_crt_verify`'s
core returns the fatal error through an early-return path that leaves the
output flag word at 0, not all-ones. -/
theorem claim_C1_counterexample :
    (x509_crt_verify_restartable_ca_cb envNoPk certEE [] none none).ret
        = errX509FatalError ∧
    (x509_crt_verify_restartable_ca_cb envNoPk certEE [] none none).flags = 0 ∧
    (0 : Nat) ≠ allOnes32 :=
  ⟨rfl, rfl, by decide⟩

/-- C1 amended: when the verifier completes without a fatal error, it
returns 0 iff the folded per-slot defect word (after the optional verdict
callback has adjusted each slot) is 0, and `CERT_VERIFY_FAILED` otherwise,
the output word being exactly that folded word; when it fails with a fatal
error through the `exit` path the flag word is all-ones — but on the two
early-return paths (host-name check failure, end-entity public-key
acquisition failure) the flag word is left at 0. -/
theorem claim_C1_amended :
    ∀ (env : Env) (crt : Cert) (rest : List Cert) (cn : Option (List Char))
      (fVrfy : Option VrfyCb),
      (((x509_crt_verify_restartable_ca_cb env crt rest cn fVrfy).ret = 0 ∨
        (x509_crt_verify_restartable_ca_cb env crt rest cn fVrfy).ret
          = errX509CertVerifyFailed) →
        (∃ eeNameFlags chain,
           x509_ee_name_step crt cn = .ok eeNameFlags ∧
           x509_crt_verify_chain env crt rest = .ok chain ∧
           x509_crt_merge_flags_with_cb fVrfy
             (x509_bump_ee_flags (eeNameFlags ||| x509_ee_key_flags env crt)
               chain)
             = .ok (x509_crt_verify_restartable_ca_cb env crt rest cn
                     fVrfy).flags) ∧
        ((x509_crt_verify_restartable_ca_cb env crt rest cn fVrfy).ret = 0 ↔
          (x509_crt_verify_restartable_ca_cb env crt rest cn fVrfy).flags
            = 0)) ∧
      (((x509_crt_verify_restartable_ca_cb env crt rest cn fVrfy).ret ≠ 0 ∧
        (x509_crt_verify_restartable_ca_cb env crt rest cn fVrfy).ret
          ≠ errX509CertVerifyFailed) →
        ((x509_crt_verify_restartable_ca_cb env crt rest cn fVrfy).flags
            = allOnes32 ∨
         ((x509_crt_verify_restartable_ca_cb env crt rest cn fVrfy).flags = 0 ∧
          (x509_crt_verify_restartable_ca_cb env crt rest cn fVrfy).ret
            = errX509FatalError ∧
          ((∃ e, x509_ee_name_step crt cn = .error e) ∨
           env.pkAcquireOk crt = false)))) := by
  intro env crt rest cn fVrfy
  unfold x509_crt_verify_restartable_ca_cb
  cases hprof : env.profilePresent
  · simp only [hprof, Bool.not_false, if_true]
    exact ⟨fun hok => absurd hok (by decide), fun _ => Or.inl (by simp)⟩
  · simp only [hprof, Bool.not_true, Bool.false_eq_true, if_false]
    split
    · next e heqName =>
      have he := x509_ee_name_step_err heqName
      subst he
      refine ⟨fun hok => absurd hok (by decide), fun _ => Or.inr ?_⟩
      exact ⟨by simp, by simp, Or.inl ⟨errX509FatalError, heqName⟩⟩
    · next eeNameFlags heqName =>
      cases hpk : env.pkAcquireOk crt
      · simp only [hpk, Bool.not_false, if_true]
        refine ⟨fun hok => absurd hok (by decide), fun _ => Or.inr ?_⟩
        exact ⟨by simp, by simp, Or.inr (by simp)⟩
      · simp only [hpk, Bool.not_true, Bool.false_eq_true, if_false]
        split
        · next chain heqChain =>
          split
          · next r heqMerge =>
            have hr := merge_err_ne_zero heqMerge
            by_cases hrvf : r = errX509CertVerifyFailed
            · rw [if_pos hrvf]
              exact ⟨fun hok => absurd hok (by decide), fun _ => Or.inl (by simp)⟩
            · rw [if_neg hrvf]
              refine ⟨fun hok => ?_, fun _ => Or.inl (by simp)⟩
              exact absurd hok (by
                rintro (h0 | hvf)
                · exact hr h0
                · exact hrvf hvf)
          · next folded heqMerge =>
            by_cases hf : folded = 0
            · subst hf
              rw [if_neg (fun hc => hc rfl)]
              refine ⟨fun _ => ⟨⟨eeNameFlags, chain, heqName, heqChain,
                heqMerge⟩, by simp⟩, fun hne => absurd rfl hne.1⟩
            · rw [if_pos hf]
              refine ⟨fun _ => ⟨⟨eeNameFlags, chain, heqName, heqChain,
                heqMerge⟩, iff_of_false (by simp [errX509CertVerifyFailed]) hf⟩,
                fun hne => absurd rfl hne.2⟩
        · next c heqChain =>
          exact ⟨fun hok => absurd hok (by decide), fun _ => Or.inl (by simp)⟩
        · next c heqChain =>
          exact ⟨fun hok => absurd hok (by decide), fun _ => Or.inl (by simp)⟩

/-- C1 witness: on a concrete successful run, status 0 and flag word 0
coincide, via the amended theorem. -/
theorem claim_C1_witness :
    ((x509_crt_verify_restartable_ca_cb envInWindow (mkCert 5 5) [] none
        none).ret = 0 ↔
     (x509_crt_verify_restartable_ca_cb envInWindow (mkCert 5 5) [] none
        none).flags = 0) :=
  ((claim_C1_amended envInWindow (mkCert 5 5) [] none none).1
    (Or.inl (by decide))).2

end X509
